import Mathlib

set_option maxRecDepth 100000

/-!
Verification development for the bottler static-file server.

The embedding below follows the two source files:
  * `src/utils/security_headers.py` — the `SecurityHeadersPlugin` class, its
    default header tables, the merge and serialisation functions `get_sh`,
    `get_csp`, `get_fp`, the `ensure_headers` helper and the `apply` wrapper;
  * `src/main.py` — the configuration readers `build_eh_updates`,
    `build_sh_updates`, `build_csp_updates`, `build_pp_updates`, the
    `serve_static_file` error normalisation, the route compiler `build_route`
    plus `construct_app`'s registration order, the text-route handler and the
    liveness/readiness probe handlers.

Python dicts are modelled as insertion-ordered association lists with string
keys; `{**a, **b}` is `dictMerge`, dict assignment is `dictInsert` (replace in
place when the key is present, append otherwise), and `'; '.join` is
`joinSep "; "`.  Header values are strings or booleans (`Val`).  String
primitives are defined over `String.data` so that every definition evaluates
by kernel reduction.
-/

namespace Bottler

/-- A header or configuration value as it occurs in bottler's YAML config and
header tables: a Python `str` or `bool`. -/
inductive Val where
  | str (s : String)
  | bool (b : Bool)
deriving DecidableEq

/-- Python `str()` of a value, as produced inside the f-strings of
`get_csp`/`get_fp` (`str(True) = "True"`). -/
def Val.pyStr : Val → String
  | .str s => s
  | .bool true => "True"
  | .bool false => "False"

/-- Python `v is not False`, the filter used by `get_sh`, `get_fp` and the
extra-header construction in `build_route`. -/
def notFalse (v : Val) : Bool :=
  if v = Val.bool false then false else true

/-- A Python dict (string keys), modelled as an insertion-ordered association
list.  Dicts built by the program never carry duplicate keys. -/
abbrev Dict := List (String × Val)

/-- Dict lookup (`d.get(k)` / `d[k]`): first entry with the given key. -/
def dictGet : Dict → String → Option Val
  | [], _ => none
  | (k₀, v₀) :: d, k => if k₀ = k then some v₀ else dictGet d k

/-- Python `k in d`. -/
def dictContains : Dict → String → Bool
  | [], _ => false
  | (k₀, _) :: d, k => if k₀ = k then true else dictContains d k

/-- The key sequence of a dict, in insertion order. -/
def dictKeys (d : Dict) : List String := d.map Prod.fst

/-- Dict assignment `d[k] = v`: replace in place when the key is present,
append otherwise — exactly Python's insertion-order semantics. -/
def dictInsert (d : Dict) (k : String) (v : Val) : Dict :=
  if dictContains d k then d.map (fun kv => if kv.1 = k then (k, v) else kv)
  else d ++ [(k, v)]

/-- Python `{**d, **u}`: start from `d` and assign every entry of `u` in
order. -/
def dictMerge (d u : Dict) : Dict :=
  u.foldl (fun acc kv => dictInsert acc kv.1 kv.2) d

/-- The no-duplicate-keys invariant every Python dict satisfies. -/
def NodupKeys (d : Dict) : Prop := (dictKeys d).Nodup

instance (d : Dict) : Decidable (NodupKeys d) :=
  inferInstanceAs (Decidable (dictKeys d).Nodup)

/-- The truthiness-guarded merge shared by `get_sh`, `get_csp`, `get_fp` and
`SecurityHeadersPlugin.__init__`: `if updates: d = {**d, **updates}`
(`None`/`{}` are both modelled as the empty dict). -/
def dictResolve (d u : Dict) : Dict :=
  if u.isEmpty then d else dictMerge d u

/-- `p.isPrefixOf s` on characters — Python `s[:len(p)] == p` /
`s.startswith(p)`. -/
def strStartsWith (s pre : String) : Bool := pre.data.isPrefixOf s.data

/-- Python `s.endswith(suf)` / `s[-1] == c`. -/
def strEndsWith (s suf : String) : Bool := suf.data.isSuffixOf s.data

/-- Python `s[n:]` (character based; all strings here are ASCII). -/
def strDrop (s : String) (n : Nat) : String := String.mk (s.data.drop n)

/-- Python `s[:n]`. -/
def strTake (s : String) (n : Nat) : String := String.mk (s.data.take n)

/-- Python `len(s)`. -/
def strLen (s : String) : Nat := s.data.length

/-- Contiguous-substring test on character lists. -/
def containsChars : List Char → List Char → Bool
  | pat, [] => pat.isEmpty
  | pat, c :: rest => pat.isPrefixOf (c :: rest) || containsChars pat rest

/-- Python `pat in s` (substring containment). -/
def strContains (s pat : String) : Bool := containsChars pat.data s.data

/-- Python `s.strip()`: remove leading and trailing whitespace. -/
def pyStrip (s : String) : String :=
  String.mk (((s.data.dropWhile Char.isWhitespace).reverse.dropWhile
      Char.isWhitespace).reverse)

/-- Python `sep.join(entries)`. -/
def joinSep (sep : String) : List String → String
  | [] => ""
  | [x] => x
  | x :: y :: xs => x ++ sep ++ joinSep sep (y :: xs)

/-- A single-quote character as a string (the quoting used by CSP source
values such as `'none'`). -/
def sq : String := String.singleton (Char.ofNat 39)

/-- The CSP/Permissions-Policy source value `'none'`. -/
def qnone : String := sq ++ "none" ++ sq

/-- The CSP/Permissions-Policy source value `'self'`. -/
def qself : String := sq ++ "self" ++ sq

/-- The CSP source value `'unsafe-inline'`. -/
def qunsafeInline : String := sq ++ "unsafe-inline" ++ sq

/-- `SecurityHeadersPlugin.sh_defaults` (class attribute). -/
def sh_defaults : Dict :=
  [("Strict-Transport-Security",
      Val.str "max-age=63072000; includeSubDomains; preload"),
   ("Expect-CT", Val.str "max-age=86400, enforce"),
   ("Referrer-Policy", Val.str "no-referrer, strict-origin-when-cross-origin"),
   ("X-XSS-Protection", Val.str "1; mode=block"),
   ("X-Content-Type-Options", Val.str "nosniff"),
   ("X-Frame-Options", Val.str "DENY")]

/-- `SecurityHeadersPlugin.csp_defaults` (class attribute), in declaration
order. -/
def csp_defaults : Dict :=
  [("default-src", Val.str qnone),
   ("base-uri", Val.str qnone),
   ("form-action", Val.str qnone),
   ("frame-ancestors", Val.str qnone),
   ("block-all-mixed-content", Val.bool true)]

/-- `SecurityHeadersPlugin.fp_defaults` (class attribute), in declaration
order. -/
def fp_defaults : Dict :=
  [("accelerometer", Val.str qnone),
   ("ambient-light-sensor", Val.str qnone),
   ("autoplay", Val.str qnone),
   ("battery", Val.str qnone),
   ("camera", Val.str qnone),
   ("display-capture", Val.str qnone),
   ("document-domain", Val.str qnone),
   ("encrypted-media", Val.str qnone),
   ("execution-while-not-rendered", Val.str qnone),
   ("execution-while-out-of-viewport", Val.str qnone),
   ("fullscreen", Val.str qnone),
   ("geolocation", Val.str qnone),
   ("gyroscope", Val.str qnone),
   ("layout-animations", Val.str qnone),
   ("legacy-image-formats", Val.str qnone),
   ("magnetometer", Val.str qnone),
   ("microphone", Val.str qnone),
   ("midi", Val.str qnone),
   ("navigation-override", Val.str qnone),
   ("oversized-images", Val.str qnone),
   ("payment", Val.str qnone),
   ("picture-in-picture", Val.str qnone),
   ("publickey-credentials-get", Val.str qnone),
   ("screen-wake-lock", Val.str qnone),
   ("sync-xhr", Val.str qnone),
   ("usb", Val.str qnone),
   ("wake-lock", Val.str qnone),
   ("web-share", Val.str qnone),
   ("xr-spatial-tracking", Val.str qnone)]

/-- A `SecurityHeadersPlugin` instance: its three (possibly
constructor-overridden) default tables. -/
structure SecurityHeadersPlugin where
  sh : Dict
  csp : Dict
  fp : Dict
deriving DecidableEq

/-- `SecurityHeadersPlugin.__init__(sh_updates, csp_updates, fp_updates)`:
each truthy update set is merged over the class defaults.  Note the accepted
keyword parameters are `sh_updates`, `csp_updates`, `fp_updates` — there is no
`pp_updates` parameter (see `security_headers_plugin_init_params`). -/
def SecurityHeadersPlugin.init
    (sh_updates csp_updates fp_updates : Dict) : SecurityHeadersPlugin :=
  ⟨dictResolve sh_defaults sh_updates,
   dictResolve csp_defaults csp_updates,
   dictResolve fp_defaults fp_updates⟩

/-- A plugin constructed with no overrides (the class defaults). -/
def SecurityHeadersPlugin.base : SecurityHeadersPlugin :=
  SecurityHeadersPlugin.init [] [] []

/-- `SecurityHeadersPlugin.get_sh`: merge the updates over the instance table
and keep every entry whose value `is not False`. -/
def SecurityHeadersPlugin.get_sh
    (p : SecurityHeadersPlugin) (sh_updates : Dict) : Dict :=
  (dictResolve p.sh sh_updates).filter (fun kv => notFalse kv.2)

/-- One directive of the CSP serialisation loop of `get_csp`, keyed by its
directive name: booleans render bare (`True`) or are omitted (`False`); other
values render as `f'{k} {v}'`. -/
def cspEntryOf (kv : String × Val) : Option (String × String) :=
  match kv.2 with
  | Val.bool true => some (kv.1, kv.1)
  | Val.bool false => none
  | Val.str s => some (kv.1, kv.1 ++ " " ++ s)

/-- The CSP entries produced by `get_csp`, paired with the directive name each
entry came from. -/
def SecurityHeadersPlugin.get_csp_items
    (p : SecurityHeadersPlugin) (csp_updates : Dict) : List (String × String) :=
  (dictResolve p.csp csp_updates).filterMap cspEntryOf

/-- `SecurityHeadersPlugin.get_csp`: `'; '.join(csp_entries)`. -/
def SecurityHeadersPlugin.get_csp
    (p : SecurityHeadersPlugin) (csp_updates : Dict) : String :=
  joinSep "; " ((p.get_csp_items csp_updates).map Prod.snd)

/-- One directive of the serialisation loop of `get_fp`: entries whose value
`is not False` render as `f'{k} {v}'` — note a boolean `True` therefore
renders as `"k True"`, not as the bare name. -/
def fpEntryOf (kv : String × Val) : Option (String × String) :=
  if kv.2 = Val.bool false then none
  else some (kv.1, kv.1 ++ " " ++ kv.2.pyStr)

/-- The Feature-Policy entries produced by `get_fp`, keyed by directive
name. -/
def SecurityHeadersPlugin.get_fp_items
    (p : SecurityHeadersPlugin) (fp_updates : Dict) : List (String × String) :=
  (dictResolve p.fp fp_updates).filterMap fpEntryOf

/-- `SecurityHeadersPlugin.get_fp`: `'; '.join(fp_entries)`. -/
def SecurityHeadersPlugin.get_fp
    (p : SecurityHeadersPlugin) (fp_updates : Dict) : String :=
  joinSep "; " ((p.get_fp_items fp_updates).map Prod.snd)

/-- `ensure_headers(r, headers)`: set each header on the response only if that
header name is not already set. -/
def ensure_headers (r : Dict) : Dict → Dict
  | [] => r
  | (k, v) :: rest =>
      ensure_headers (if dictContains r k then r else dictInsert r k v) rest

/-- Bottle flattens a dict-valued route-config entry `name` into scalar
entries keyed `name.key` (see the comment in `SecurityHeadersPlugin.apply`). -/
def flatten_section (pre : String) (d : Dict) : Dict :=
  d.map (fun kv => (pre ++ kv.1, kv.2))

/-- The flattened `route.config` produced by the `extra_route_params` that
`build_route` passes to `app.route`: the three sections are stored under the
keys `sh_updates`, `sh_csp_updates` and `sh_pp_updates`. -/
def route_config_of (sh csp pp : Dict) : Dict :=
  flatten_section "sh_updates." sh ++ flatten_section "sh_csp_updates." csp ++
    flatten_section "sh_pp_updates." pp

/-- The un-flattening loop in `SecurityHeadersPlugin.apply`:
`{k[len(pre):]: v for k, v in route.config.items() if k[:len(pre)] == pre}`. -/
def unflatten (cfg : Dict) (pre : String) : Dict :=
  (cfg.filter (fun kv => strStartsWith kv.1 pre)).map
    (fun kv => (strDrop kv.1 (strLen pre), kv.2))

/-- The header dict computed by `SecurityHeadersPlugin.apply` for a route with
the given flattened `route.config`.  `route.config.get('sh_updates')` (and the
`csp`/`fp` variants) return `None` because bottle flattened the dicts, so the
un-flatten branch always runs; the update sets are read back with the
clear-text keys `sh_updates.`, `sh_csp_updates.` and — crucially —
`sh_fp_updates.` (not `sh_pp_updates.`). -/
def SecurityHeadersPlugin.apply_headers
    (p : SecurityHeadersPlugin) (cfg : Dict) : Dict :=
  dictInsert
    (dictInsert (p.get_sh (unflatten cfg "sh_updates."))
      "Content-Security-Policy"
      (Val.str (p.get_csp (unflatten cfg "sh_csp_updates."))))
    "Feature-Policy" (Val.str (p.get_fp (unflatten cfg "sh_fp_updates.")))

/-- A bottle response: status, header dict and body.  Handlers that only
return a string leave the status at its default 200. -/
structure Resp where
  status : Nat
  headers : Dict
  body : String
deriving DecidableEq

/-- The response as a handler first sees it: status 200, no headers set. -/
def Resp.initial : Resp := ⟨200, [], ""⟩

/-- The `wrapper` closure returned by `SecurityHeadersPlugin.apply`: run the
callback, then `ensure_headers(r, headers)`. -/
def SecurityHeadersPlugin.apply_wrapper
    (p : SecurityHeadersPlugin) (cfg : Dict) (r : Resp) : Resp :=
  ⟨r.status, ensure_headers r.headers (p.apply_headers cfg), r.body⟩

/-- The keyword parameters accepted by `SecurityHeadersPlugin.__init__`
(besides `self`). -/
def security_headers_plugin_init_params : List String :=
  ["sh_updates", "csp_updates", "fp_updates"]

/-- The keyword arguments `construct_app` passes at the
`SecurityHeadersPlugin(...)` call (main.py lines 125–127). -/
def construct_app_plugin_call_kwargs : List String :=
  ["sh_updates", "csp_updates", "pp_updates"]

/-- Python keyword-call well-formedness: every passed keyword must name an
accepted parameter, otherwise the call raises `TypeError`. -/
def keyword_call_ok (params kwargs : List String) : Bool :=
  kwargs.all (fun k => params.contains k)

/-- `eh_headers` in `build_eh_updates`: the allowlist of extra-header names
taken from a configuration section. -/
def eh_headers : List String := ["Cache-Control", "Access-Control-Allow-Origin"]

/-- `sh_headers` in `build_sh_updates`: the allowlist of security-header names
taken from a configuration section. -/
def sh_headers : List String :=
  ["Strict-Transport-Security",
   "Expect-CT",
   "Referrer-Policy",
   "Cross-Origin-Opener-Policy",
   "Cross-Origin-Embedder-Policy",
   "Cross-Origin-Resource-Policy",
   "X-XSS-Protection",
   "X-Content-Type-Options",
   "X-Frame-Options"]

/-- `build_eh_updates`: keep only allowlisted extra-header names from the
`extraHeaders` section (`config.get('extraHeaders') or {}` is the section
argument). -/
def build_eh_updates (sect : Dict) : Dict :=
  sect.filter (fun kv => eh_headers.contains kv.1)

/-- `build_sh_updates`: keep only allowlisted security-header names from the
`securityHeaders` section. -/
def build_sh_updates (sect : Dict) : Dict :=
  sect.filter (fun kv => sh_headers.contains kv.1)

/-- `build_csp_updates`: the `contentSecurityPolicy` section, unchanged. -/
def build_csp_updates (sect : Dict) : Dict := sect

/-- `build_pp_updates`: the `permissionsPolicy` section, unchanged. -/
def build_pp_updates (sect : Dict) : Dict := sect

/-- `DEFAULT_EXTRA_HEADERS = {'Cache-Control': f'max-age={600}'}`. -/
def DEFAULT_EXTRA_HEADERS : Dict := [("Cache-Control", Val.str "max-age=600")]

/-- `DEFAULT_INDEX_FILE`. -/
def DEFAULT_INDEX_FILE : String := "index.html"

/-- The per-route extra headers built in `build_route`:
`{**DEFAULT_EXTRA_HEADERS, **global_eh_updates, **eh_updates}` with the
`is not False` filter. -/
def build_extra_headers (global_eh eh_updates : Dict) : Dict :=
  (dictMerge (dictMerge DEFAULT_EXTRA_HEADERS global_eh) eh_updates).filter
    (fun kv => notFalse kv.2)

/-- What the bottle `static_file` primitive produced: a successful response or
an `HTTPError` with some status and message body. -/
inductive StaticResult where
  | ok (body : String)
  | httpError (status : Nat) (body : String)
deriving DecidableEq

/-- The error normalisation in `serve_static_file`: any `HTTPError` with a 4xx
status is replaced by `abort(404, 'Not Found')`; everything else is returned
unchanged. -/
def serve_static_file (res : StaticResult) : StaticResult :=
  match res with
  | .ok b => .ok b
  | .httpError s b =>
      if 400 ≤ s ∧ s < 500 then .httpError 404 "Not Found"
      else .httpError s b

/-- `route_config.get(key) or default` for string fields: `None` and the empty
string are both falsy. -/
def pyOrStr (o : Option String) (d : String) : String :=
  match o with
  | none => d
  | some s => if s = "" then d else s

/-- `route_config.get(key)` under truthiness: an empty string behaves like an
absent key. -/
def pyTruthy (o : Option String) : Option String :=
  match o with
  | some "" => none
  | x => x

/-- `os.path.join(a, b)` for the shapes used here (posix, `b` relative unless
it starts with `/`): joining `""` yields `a` with a trailing separator. -/
def pathJoin (a b : String) : String :=
  if strStartsWith b "/" then b
  else if b = "" then (if strEndsWith a "/" then a else a ++ "/")
  else if strEndsWith a "/" then a ++ b else a ++ "/" ++ b

/-- The content-type resolution in the text branch of `build_route`:
default `text/plain`; when it starts with `text/` and has no `charset=`
substring, `content_type.strip() + '; charset=UTF-8'`. -/
def resolve_content_type (ct : Option String) : String :=
  let c := pyOrStr ct "text/plain"
  if strTake c 5 = "text/" ∧ strContains c "charset=" = false then
    pyStrip c ++ "; charset=UTF-8"
  else c

/-- The `serve_text` handler: `response.set_header` for every extra header
(unconditional assignment), then `response.content_type = content_type`, then
return the literal text as the body; the status is left untouched. -/
def serve_text (extra_hs : Dict) (content_type : String) (text_data : String)
    (r : Resp) : Resp :=
  ⟨r.status,
   dictInsert (extra_hs.foldl (fun acc kv => dictInsert acc kv.1 kv.2) r.headers)
     "Content-Type" (Val.str content_type),
   text_data⟩

/-- The `live` handler: unconditional 200 `"Live"`. -/
def live_handler : Resp := ⟨200, [], "Live"⟩

/-- The `ready` handler: 200 `"Ready"` when `SERVER_READY`, else
`response.status = 503` with body `"Unavailable"`. -/
def ready_handler (server_ready : Bool) : Resp :=
  if server_ready then ⟨200, [], "Ready"⟩ else ⟨503, [], "Unavailable"⟩

/-- `SERVER_READY = True` at module load. -/
def SERVER_READY_initial : Bool := true

/-- The value `shutdown()` assigns to `SERVER_READY`. -/
def shutdown_server_ready : Bool := false

/-- The `type` field of a route declaration. -/
inductive RouteType where
  | directory
  | file
  | json
  | text
deriving DecidableEq

/-- One route declaration from the configuration's `routes` list.  `fileName`,
`textData` and `jsonData` model the YAML keys `file`, `text` and `json`; the
four dict fields model the per-route header-override sections. -/
structure RouteDecl where
  type : RouteType
  method : Option String := none
  path : Option String := none
  pathPfx : Option String := none
  fileRoot : Option String := none
  fileName : Option String := none
  indexFile : Option String := none
  contentType : Option String := none
  textData : Option String := none
  jsonData : Option String := none
  extraHeaders : Dict := []
  securityHeaders : Dict := []
  contentSecurityPolicy : Dict := []
  permissionsPolicy : Dict := []
deriving DecidableEq

/-- A compiled bottle rule: `exact` is a literal path; `dirSlash` is
`pfx + '<file_path:re:.+>/'`; `dirAny` is `pfx + '<file_path:re:.+>'`. -/
inductive RoutePat where
  | exact (p : String)
  | dirSlash (pfx : String)
  | dirAny (pfx : String)
deriving DecidableEq

/-- Whether a request path matches a compiled rule (`.+` must capture at least
one character; for `dirSlash` it is followed by a literal `/`). -/
def RoutePat.matches : RoutePat → String → Bool
  | .exact q, p => decide (p = q)
  | .dirSlash pfx, p =>
      strStartsWith p pfx &&
        decide (2 ≤ strLen (strDrop p (strLen pfx))) &&
        strEndsWith (strDrop p (strLen pfx)) "/"
  | .dirAny pfx, p =>
      strStartsWith p pfx && decide (1 ≤ strLen (strDrop p (strLen pfx)))

/-- The handler bound to a compiled rule, with its captured parameters. -/
inductive HandlerKind where
  | dirIndex (fileRoot indexFile : String) (extra_hs : Dict)
  | dirFile (fileRoot : String) (extra_hs : Dict)
  | fileResp (fileName : String) (contentType : Option String) (extra_hs : Dict)
  | jsonResp (payload : String) (extra_hs : Dict)
  | textResp (body content_type : String) (extra_hs : Dict)
  | probeLive
  | probeReady
deriving DecidableEq

/-- One entry of the dispatch table: method, rule, handler, and the flattened
`route.config` carrying the per-route header-override sections. -/
structure CompiledEntry where
  method : String
  pat : RoutePat
  kind : HandlerKind
  routeCfg : Dict
deriving DecidableEq

/-- The file root captured by a directory entry's handler, if any. -/
def CompiledEntry.fileRootOf (e : CompiledEntry) : Option String :=
  match e.kind with
  | .dirIndex root _ _ => some root
  | .dirFile root _ => some root
  | _ => none

/-- `build_route(route_config)`: validation plus compilation of one route
declaration into its registered entries, in registration order (decorators
closest to the function register first, so for a directory route the
`dirSlash` rule registers before the `exact` rule). -/
def build_route (g : String) (global_eh : Dict) (rd : RouteDecl) :
    Except String (List CompiledEntry) :=
  let method := pyOrStr rd.method "GET"
  let extra_hs := build_extra_headers global_eh (build_eh_updates rd.extraHeaders)
  let rcfg := route_config_of (build_sh_updates rd.securityHeaders)
    (build_csp_updates rd.contentSecurityPolicy)
    (build_pp_updates rd.permissionsPolicy)
  match rd.type with
  | .directory =>
    match rd.pathPfx with
    | none => .error "KeyError: pathPrefix"
    | some pfx =>
      if !(strStartsWith pfx "/") then .error "pathPrefix must start with /"
      else if !(strEndsWith pfx "/") then .error "pathPrefix must end with /"
      else
        let froot := match pyTruthy rd.fileRoot with
          | some fr => pathJoin g fr
          | none => pathJoin g (strDrop pfx 1)
        let idx := pyOrStr rd.indexFile DEFAULT_INDEX_FILE
        .ok [⟨method, RoutePat.dirSlash pfx, HandlerKind.dirIndex froot idx extra_hs, rcfg⟩,
             ⟨method, RoutePat.exact pfx, HandlerKind.dirIndex froot idx extra_hs, rcfg⟩,
             ⟨method, RoutePat.dirAny pfx, HandlerKind.dirFile froot extra_hs, rcfg⟩]
  | .file =>
    match rd.path with
    | none => .error "KeyError: path"
    | some p =>
      if !(strStartsWith p "/") then .error "path must start with /"
      else
        let fname := match pyTruthy rd.fileName with
          | some f => pathJoin g f
          | none => pathJoin g (strDrop p 1)
        .ok [⟨method, RoutePat.exact p,
              HandlerKind.fileResp fname (pyTruthy rd.contentType) extra_hs, rcfg⟩]
  | .json =>
    match rd.path with
    | none => .error "KeyError: path"
    | some p =>
      if !(strStartsWith p "/") then .error "path must start with /"
      else match rd.jsonData with
        | none => .error "KeyError: json"
        | some j =>
            .ok [⟨method, RoutePat.exact p, HandlerKind.jsonResp j extra_hs, rcfg⟩]
  | .text =>
    match rd.path with
    | none => .error "KeyError: path"
    | some p =>
      if !(strStartsWith p "/") then .error "path must start with /"
      else match rd.textData with
        | none => .error "KeyError: text"
        | some t =>
            .ok [⟨method, RoutePat.exact p,
                  HandlerKind.textResp t (resolve_content_type rd.contentType) extra_hs,
                  rcfg⟩]

/-- The probe routes `construct_app` registers before any configured route. -/
def probe_entries : List CompiledEntry :=
  [⟨"GET", RoutePat.exact "/-/live", HandlerKind.probeLive, []⟩,
   ⟨"GET", RoutePat.exact "/-/ready", HandlerKind.probeReady, []⟩]

/-- The top-level configuration tree (absent sections are empty). -/
structure Config where
  extraHeaders : Dict := []
  securityHeaders : Dict := []
  contentSecurityPolicy : Dict := []
  permissionsPolicy : Dict := []
  indexFile : Option String := none
  notFoundFile : Option String := none
  routes : List RouteDecl := []
deriving DecidableEq

/-- The synthesized `root_route_config`: a directory route at `/` carrying the
global `indexFile`. -/
def root_route_decl (cfg : Config) : RouteDecl :=
  { type := RouteType.directory, pathPfx := some "/", indexFile := cfg.indexFile }

/-- The registration loop `for route_config in route_configs:
build_route(route_config)`, accumulating registered entries in order. -/
def build_routes_from (g : String) (geh : Dict) :
    List RouteDecl → List CompiledEntry → Except String (List CompiledEntry)
  | [], acc => .ok acc
  | rd :: rest, acc =>
    match build_route g geh rd with
    | .error e => .error e
    | .ok es => build_routes_from g geh rest (acc ++ es)

/-- Per-declaration compilation results, in declaration order. -/
def build_list (g : String) (geh : Dict) :
    List RouteDecl → Except String (List (List CompiledEntry))
  | [] => .ok []
  | rd :: rest =>
    match build_route g geh rd with
    | .error e => .error e
    | .ok es =>
      match build_list g geh rest with
      | .error e => .error e
      | .ok ps => .ok (es :: ps)

/-- Concatenation of per-declaration entry lists. -/
def concatAll : List (List CompiledEntry) → List CompiledEntry
  | [] => []
  | l :: ls => l ++ concatAll ls

/-- The dispatch table `construct_app` builds: probe routes, then the
configured routes in declaration order, then the root catch-all route last. -/
def construct_route_table (g : String) (cfg : Config) :
    Except String (List CompiledEntry) :=
  match build_routes_from g (build_eh_updates cfg.extraHeaders) cfg.routes
      probe_entries with
  | .error e => .error e
  | .ok tbl =>
    match build_route g (build_eh_updates cfg.extraHeaders) (root_route_decl cfg) with
    | .error e => .error e
    | .ok root => .ok (tbl ++ root)

/-- First-of-two option choice, used to state dispatch precedence. -/
def optOr (a b : Option CompiledEntry) : Option CompiledEntry :=
  match a with
  | some x => some x
  | none => b

/-- Modelled from the spec: the request-dispatch loop is an external
collaborator specified only at its interface boundary — registered routes are
tried in registration order and the first matching route handles the
request. -/
def dispatch (table : List CompiledEntry) (m p : String) : Option CompiledEntry :=
  table.find? (fun e => decide (e.method = m) && e.pat.matches p)

/-- Path characters of a directory name with trailing separators removed (kept
reversed; used only for directory identity). -/
def stripSlashes (s : String) : List Char :=
  s.data.reverse.dropWhile (fun c => c = '/')

/-- Two strings denote the same directory up to trailing `/`. -/
def dirEq (a b : String) : Bool := decide (stripSlashes a = stripSlashes b)

/-- A heap of header dicts, for the aliasing-sensitive facts: `static_file`
may mutate the dict object it receives, and `serve_static_file` copies the
caller's dict before the call precisely so the caller's object is
untouched. -/
abbrev HeadersHeap := List Dict

/-- Read a heap cell. -/
def heapGet (h : HeadersHeap) (r : Nat) : Dict := h.getD r []

/-- Allocate a fresh dict object, returning its reference. -/
def heapAlloc (h : HeadersHeap) (d : Dict) : HeadersHeap × Nat :=
  (h ++ [d], h.length)

/-- Mutate the dict object behind a reference in place. -/
def heapSet (h : HeadersHeap) (r : Nat) (d : Dict) : HeadersHeap := h.set r d

/-- `serve_static_file`'s header handling: `headers = headers.copy()` (a fresh
allocation), then `static_file` may mutate the dict it was handed in an
arbitrary way; the function returns the reference that was mutated. -/
def serve_static_file_heap (mutate : Dict → Dict) (h : HeadersHeap) (r : Nat) :
    HeadersHeap × Nat :=
  let c := heapAlloc h (heapGet h r)
  (heapSet c.1 c.2 (mutate (heapGet c.1 c.2)), c.2)

/-- `get_sh` as a heap computation on the plugin's table object: the merge
`{**sh_dict, **sh_updates}` (when the updates are truthy) allocates a fresh
dict, and the result comprehension reads — never writes — the table. -/
def get_sh_heap (h : HeadersHeap) (r : Nat) (u : Dict) : HeadersHeap × Dict :=
  let m := if u.isEmpty then (h, r) else heapAlloc h (dictMerge (heapGet h r) u)
  (m.1, (heapGet m.1 m.2).filter (fun kv => notFalse kv.2))

/-- `get_csp` as a heap computation on the plugin's table object. -/
def get_csp_heap (h : HeadersHeap) (r : Nat) (u : Dict) : HeadersHeap × String :=
  let m := if u.isEmpty then (h, r) else heapAlloc h (dictMerge (heapGet h r) u)
  (m.1, joinSep "; " (((heapGet m.1 m.2).filterMap cspEntryOf).map Prod.snd))

/-- `get_fp` as a heap computation on the plugin's table object. -/
def get_fp_heap (h : HeadersHeap) (r : Nat) (u : Dict) : HeadersHeap × String :=
  let m := if u.isEmpty then (h, r) else heapAlloc h (dictMerge (heapGet h r) u)
  (m.1, joinSep "; " (((heapGet m.1 m.2).filterMap fpEntryOf).map Prod.snd))

/-- The body of the `/robots.txt` example route. -/
def robots_text : String := "User-agent: *\nDisallow:"

/-- The full response of the example text route
`{type: text, path: /robots.txt, text: ..., contentType: text/plain}` under an
otherwise empty configuration: the `serve_text` handler runs, then the
security-headers wrapper. -/
def robots_route_resp : Resp :=
  SecurityHeadersPlugin.apply_wrapper SecurityHeadersPlugin.base
    (route_config_of [] [] [])
    (serve_text (build_extra_headers [] []) (resolve_content_type (some "text/plain"))
      robots_text Resp.initial)

/-- The dispatch table compiled from an empty configuration with file root
`/site`: the two probe routes followed by the synthesized root catch-all
directory route. -/
def C6_witness_table : List CompiledEntry :=
  probe_entries ++
    [⟨"GET", RoutePat.dirSlash "/",
      HandlerKind.dirIndex "/site/" "index.html"
        [("Cache-Control", Val.str "max-age=600")], []⟩,
     ⟨"GET", RoutePat.exact "/",
      HandlerKind.dirIndex "/site/" "index.html"
        [("Cache-Control", Val.str "max-age=600")], []⟩,
     ⟨"GET", RoutePat.dirAny "/",
      HandlerKind.dirFile "/site/" [("Cache-Control", Val.str "max-age=600")], []⟩]

/-! ### Lemmas about the dict model -/

theorem dictContains_eq_isSome (d : Dict) (k : String) :
    dictContains d k = (dictGet d k).isSome := by
  induction d with
  | nil => rfl
  | cons kv d ih =>
    obtain ⟨k₀, v₀⟩ := kv
    by_cases h : k₀ = k <;> simp [dictContains, dictGet, h, ih]

theorem dictGet_eq_none (d : Dict) (k : String) (h : dictContains d k = false) :
    dictGet d k = none := by
  have hs := dictContains_eq_isSome d k
  rw [h] at hs
  cases hg : dictGet d k with
  | none => rfl
  | some v => rw [hg] at hs; simp at hs

theorem mem_dictKeys (d : Dict) (k : String) :
    k ∈ dictKeys d ↔ dictContains d k = true := by
  induction d with
  | nil => simp [dictKeys, dictContains]
  | cons kv d ih =>
    obtain ⟨k₀, v₀⟩ := kv
    rw [show dictKeys ((k₀, v₀) :: d) = k₀ :: dictKeys d from rfl, List.mem_cons,
      show dictContains ((k₀, v₀) :: d) k
        = if k₀ = k then true else dictContains d k from rfl]
    by_cases h : k₀ = k
    · subst h; simp
    · rw [if_neg h]
      constructor
      · intro hm
        rcases hm with he | hm
        · exact (h he.symm).elim
        · exact ih.mp hm
      · intro hc
        exact Or.inr (ih.mpr hc)

theorem dictGet_eq_none_of_not_mem (d : Dict) (k : String) (h : k ∉ dictKeys d) :
    dictGet d k = none := by
  apply dictGet_eq_none
  cases hc : dictContains d k with
  | false => rfl
  | true => exact absurd ((mem_dictKeys d k).mpr hc) h

theorem dictGet_append (d d' : Dict) (k : String) :
    dictGet (d ++ d') k = (dictGet d k).or (dictGet d' k) := by
  induction d with
  | nil => simp [dictGet, Option.or]
  | cons kv d ih =>
    obtain ⟨k₀, v₀⟩ := kv
    by_cases h : k₀ = k <;> simp [dictGet, h, ih, Option.or]

theorem dictGet_mapReplace_self {k : String} {v : Val} : ∀ (d : Dict),
    dictContains d k = true →
    dictGet (d.map (fun kv => if kv.1 = k then (k, v) else kv)) k = some v := by
  intro d
  induction d with
  | nil => intro h; cases h
  | cons kv d ih =>
    intro h
    obtain ⟨k₀, v₀⟩ := kv
    rw [List.map_cons]
    by_cases hk : k₀ = k
    · subst hk
      rw [if_pos rfl, dictGet, if_pos rfl]
    · rw [if_neg hk, dictGet, if_neg hk]
      have h' : dictContains d k = true := by
        rw [dictContains, if_neg hk] at h
        exact h
      exact ih h'

theorem dictGet_mapReplace_ne {k k' : String} {v : Val} (h : k' ≠ k) : ∀ (d : Dict),
    dictGet (d.map (fun kv => if kv.1 = k' then (k', v) else kv)) k = dictGet d k := by
  intro d
  induction d with
  | nil => rfl
  | cons kv d ih =>
    obtain ⟨k₀, v₀⟩ := kv
    rw [List.map_cons]
    by_cases hk : k₀ = k'
    · subst hk
      rw [if_pos rfl, dictGet, if_neg h, dictGet, if_neg h]
      exact ih
    · rw [if_neg hk]
      by_cases h2 : k₀ = k
      · rw [dictGet, if_pos h2, dictGet, if_pos h2]
      · rw [dictGet, if_neg h2, dictGet, if_neg h2]
        exact ih

theorem dictGet_insert_self (d : Dict) (k : String) (v : Val) :
    dictGet (dictInsert d k v) k = some v := by
  unfold dictInsert
  cases hc : dictContains d k with
  | true =>
    show dictGet (d.map (fun kv => if kv.1 = k then (k, v) else kv)) k = some v
    exact dictGet_mapReplace_self d hc
  | false =>
    show dictGet (d ++ [(k, v)]) k = some v
    rw [dictGet_append, dictGet_eq_none d k hc]
    show dictGet [(k, v)] k = some v
    rw [dictGet, if_pos rfl]

theorem dictGet_insert_ne (d : Dict) {k k' : String} (v : Val) (h : k' ≠ k) :
    dictGet (dictInsert d k' v) k = dictGet d k := by
  unfold dictInsert
  cases hc : dictContains d k' with
  | true =>
    show dictGet (d.map (fun kv => if kv.1 = k' then (k', v) else kv)) k = dictGet d k
    exact dictGet_mapReplace_ne h d
  | false =>
    show dictGet (d ++ [(k', v)]) k = dictGet d k
    rw [dictGet_append]
    have h1 : dictGet [(k', v)] k = none := by
      rw [dictGet, if_neg h]
      rfl
    rw [h1]
    cases hg : dictGet d k <;> rfl

theorem dictContains_insert (d : Dict) (k' k : String) (v : Val) :
    dictContains (dictInsert d k' v) k = (dictContains d k || decide (k' = k)) := by
  by_cases h : k' = k
  · subst h
    rw [dictContains_eq_isSome, dictGet_insert_self]
    simp
  · rw [dictContains_eq_isSome, dictGet_insert_ne d v h, ← dictContains_eq_isSome]
    simp [h]

theorem dictKeys_insert_of_contains {d : Dict} {k : String} (v : Val)
    (h : dictContains d k = true) :
    dictKeys (dictInsert d k v) = dictKeys d := by
  unfold dictInsert
  rw [if_pos h]
  unfold dictKeys
  rw [List.map_map]
  apply List.map_congr_left
  intro a _
  by_cases ha : a.1 = k <;> simp [ha]

theorem dictKeys_insert_of_not {d : Dict} {k : String} (v : Val)
    (h : dictContains d k = false) :
    dictKeys (dictInsert d k v) = dictKeys d ++ [k] := by
  unfold dictInsert
  rw [if_neg (by simp [h])]
  simp [dictKeys]

theorem nodupKeys_cons {k₀ : String} {v₀ : Val} {d : Dict} :
    NodupKeys ((k₀, v₀) :: d) ↔ k₀ ∉ dictKeys d ∧ NodupKeys d := by
  simp [NodupKeys, dictKeys]

theorem dictMerge_nil (d : Dict) : dictMerge d [] = d := rfl

theorem dictMerge_cons (d : Dict) (kv : String × Val) (u : Dict) :
    dictMerge d (kv :: u) = dictMerge (dictInsert d kv.1 kv.2) u := rfl

theorem dictMerge_get : ∀ (u : Dict), NodupKeys u → ∀ (d : Dict) (k : String),
    dictGet (dictMerge d u) k = (dictGet u k).or (dictGet d k) := by
  intro u
  induction u with
  | nil => intro _ d k; simp [dictMerge_nil, dictGet, Option.or]
  | cons kv u ih =>
    intro hu d k
    obtain ⟨k₀, v₀⟩ := kv
    rw [nodupKeys_cons] at hu
    obtain ⟨hnot, hu'⟩ := hu
    rw [dictMerge_cons, ih hu' (dictInsert d k₀ v₀) k]
    by_cases h : k₀ = k
    · subst h
      rw [dictGet_eq_none_of_not_mem u k₀ hnot, dictGet_insert_self]
      simp [dictGet, Option.or]
    · rw [dictGet_insert_ne d v₀ h]
      simp [dictGet, h]

theorem dictMerge_keys : ∀ (u : Dict), NodupKeys u → ∀ (d : Dict),
    dictKeys (dictMerge d u)
      = dictKeys d ++ (dictKeys u).filter (fun k => !(dictContains d k)) := by
  intro u
  induction u with
  | nil => intro _ d; simp [dictMerge_nil, dictKeys]
  | cons kv u ih =>
    intro hu d
    obtain ⟨k₀, v₀⟩ := kv
    rw [nodupKeys_cons] at hu
    obtain ⟨hnot, hu'⟩ := hu
    rw [dictMerge_cons, ih hu']
    have hfilter : (dictKeys u).filter
          (fun k => !(dictContains (dictInsert d k₀ v₀) k))
        = (dictKeys u).filter (fun k => !(dictContains d k)) := by
      apply List.filter_congr
      intro x hx
      have hxne : k₀ ≠ x := fun he => hnot (he ▸ hx)
      rw [dictContains_insert]
      simp [hxne]
    rw [hfilter]
    cases hc : dictContains d k₀ with
    | true =>
      rw [dictKeys_insert_of_contains v₀ hc]
      simp [dictKeys, hc]
    | false =>
      rw [dictKeys_insert_of_not v₀ hc]
      simp [dictKeys, hc]

theorem dictInsert_nodup {d : Dict} (hd : NodupKeys d) (k : String) (v : Val) :
    NodupKeys (dictInsert d k v) := by
  cases hc : dictContains d k with
  | true => unfold NodupKeys; rw [dictKeys_insert_of_contains v hc]; exact hd
  | false =>
    unfold NodupKeys
    rw [dictKeys_insert_of_not v hc]
    have hnm : k ∉ dictKeys d := fun hm => by
      rw [(mem_dictKeys d k).mp hm] at hc
      cases hc
    refine List.Nodup.append hd (List.nodup_singleton k) ?_
    intro x hx hx'
    rw [List.mem_singleton] at hx'
    exact hnm (hx' ▸ hx)

theorem dictMerge_nodup : ∀ (u : Dict) {d : Dict}, NodupKeys d →
    NodupKeys (dictMerge d u) := by
  intro u
  induction u with
  | nil => intro d h; exact h
  | cons kv u ih =>
    intro d hd
    rw [dictMerge_cons]
    exact ih (dictInsert_nodup hd kv.1 kv.2)

theorem dictResolve_eq (d u : Dict) : dictResolve d u = dictMerge d u := by
  cases u with
  | nil => simp [dictResolve, dictMerge_nil]
  | cons kv u => simp [dictResolve]

theorem dictGet_mem : ∀ {d : Dict} {k : String} {v : Val},
    dictGet d k = some v → (k, v) ∈ d := by
  intro d
  induction d with
  | nil => intro k v h; cases h
  | cons kv d ih =>
    intro k v h
    obtain ⟨k₀, v₀⟩ := kv
    by_cases hk : k₀ = k
    · subst hk
      rw [dictGet, if_pos rfl] at h
      cases h
      exact List.mem_cons_self ..
    · rw [dictGet, if_neg hk] at h
      exact List.mem_cons_of_mem _ (ih h)

theorem dictGet_filter_none (q : String × Val → Bool) :
    ∀ (d : Dict) (k : String), dictGet d k = none →
      dictGet (d.filter q) k = none := by
  intro d
  induction d with
  | nil => intro k _; rfl
  | cons kv d ih =>
    intro k h
    obtain ⟨k₀, v₀⟩ := kv
    by_cases hk : k₀ = k
    · subst hk; rw [dictGet, if_pos rfl] at h; cases h
    · rw [dictGet, if_neg hk] at h
      cases hq : q (k₀, v₀) <;> simp [List.filter_cons, hq, dictGet, hk, ih k h]

theorem dictGet_filter_val (p : Val → Bool) :
    ∀ (d : Dict), NodupKeys d → ∀ (k : String),
      dictGet (d.filter (fun kv => p kv.2)) k
        = (dictGet d k).bind (fun v => if p v then some v else none) := by
  intro d
  induction d with
  | nil => intro _ k; rfl
  | cons kv d ih =>
    intro hd k
    obtain ⟨k₀, v₀⟩ := kv
    rw [nodupKeys_cons] at hd
    obtain ⟨hnot, hd'⟩ := hd
    by_cases hk : k₀ = k
    · subst hk
      have hnone : dictGet d k₀ = none := dictGet_eq_none_of_not_mem d k₀ hnot
      cases hp : p v₀ <;>
        simp [List.filter_cons, hp, dictGet, dictGet_filter_none _ d k₀ hnone]
    · cases hp : p v₀ <;> simp [List.filter_cons, hp, dictGet, hk, ih hd' k]

theorem dictGet_filter_key (p : String → Bool) :
    ∀ (d : Dict) (k : String),
      dictGet (d.filter (fun kv => p kv.1)) k = if p k then dictGet d k else none := by
  intro d
  induction d with
  | nil => intro k; cases hp : p k <;> simp [dictGet, hp]
  | cons kv d ih =>
    intro k
    obtain ⟨k₀, v₀⟩ := kv
    by_cases hk : k₀ = k
    · subst hk
      cases hp : p k₀ <;> simp [List.filter_cons, hp, dictGet, ih]
    · cases hp : p k₀ <;> simp [List.filter_cons, hp, dictGet, hk, ih]

theorem dictGet_ensure : ∀ (hs : Dict) (r : Dict) (k : String),
    dictGet (ensure_headers r hs) k
      = if dictContains r k then dictGet r k else dictGet hs k := by
  intro hs
  induction hs with
  | nil =>
    intro r k
    cases hc : dictContains r k with
    | true => simp [ensure_headers, hc]
    | false => simp [ensure_headers, hc, dictGet, dictGet_eq_none r k hc]
  | cons kv hs ih =>
    intro r k
    obtain ⟨k₀, v₀⟩ := kv
    rw [ensure_headers]
    cases hc : dictContains r k₀ with
    | true =>
      show dictGet (ensure_headers r hs) k
        = if dictContains r k then dictGet r k else dictGet ((k₀, v₀) :: hs) k
      rw [ih r k]
      cases hck : dictContains r k with
      | true => rfl
      | false =>
        show dictGet hs k = dictGet ((k₀, v₀) :: hs) k
        by_cases hk : k₀ = k
        · subst hk
          rw [hc] at hck
          cases hck
        · rw [dictGet, if_neg hk]
    | false =>
      show dictGet (ensure_headers (dictInsert r k₀ v₀) hs) k
        = if dictContains r k then dictGet r k else dictGet ((k₀, v₀) :: hs) k
      rw [ih (dictInsert r k₀ v₀) k]
      by_cases hk : k₀ = k
      · subst hk
        have hci : dictContains (dictInsert r k₀ v₀) k₀ = true := by
          rw [dictContains_eq_isSome, dictGet_insert_self]
          rfl
        rw [hci, hc]
        show dictGet (dictInsert r k₀ v₀) k₀ = dictGet ((k₀, v₀) :: hs) k₀
        rw [dictGet_insert_self, dictGet, if_pos rfl]
      · rw [dictContains_insert, dictGet_insert_ne r v₀ hk]
        have hdk : decide (k₀ = k) = false := by simp [hk]
        rw [hdk, Bool.or_false]
        cases hck : dictContains r k with
        | true => rfl
        | false =>
          show dictGet hs k = dictGet ((k₀, v₀) :: hs) k
          rw [dictGet, if_neg hk]

theorem notFalse_iff (v : Val) : notFalse v = true ↔ v ≠ Val.bool false := by
  unfold notFalse
  split <;> simp_all

/-! ### Lemmas about serialisation entries -/

theorem cspEntryOf_fst {kv : String × Val} {pr : String × String}
    (h : cspEntryOf kv = some pr) : pr.1 = kv.1 := by
  obtain ⟨k, v⟩ := kv
  cases v with
  | str s =>
    simp only [cspEntryOf] at h
    cases h
    rfl
  | bool b =>
    cases b with
    | true =>
      simp only [cspEntryOf] at h
      cases h
      rfl
    | false => simp [cspEntryOf] at h

theorem fpEntryOf_fst {kv : String × Val} {pr : String × String}
    (h : fpEntryOf kv = some pr) : pr.1 = kv.1 := by
  obtain ⟨k, v⟩ := kv
  unfold fpEntryOf at h
  by_cases hv : v = Val.bool false
  · rw [if_pos (by exact hv)] at h
    cases h
  · rw [if_neg (by exact hv)] at h
    cases h
    rfl

theorem filterMap_csp_fst : ∀ (d : Dict),
    (d.filterMap cspEntryOf).map Prod.fst
      = dictKeys (d.filter (fun kv => notFalse kv.2)) := by
  intro d
  induction d with
  | nil => rfl
  | cons kv d ih =>
    obtain ⟨k₀, v₀⟩ := kv
    cases v₀ with
    | str s => simp [List.filterMap_cons, List.filter_cons, cspEntryOf, notFalse, dictKeys, ih]
    | bool b =>
      cases b <;>
        simp [List.filterMap_cons, List.filter_cons, cspEntryOf, notFalse, dictKeys, ih]

theorem filterMap_fp_fst : ∀ (d : Dict),
    (d.filterMap fpEntryOf).map Prod.fst
      = dictKeys (d.filter (fun kv => notFalse kv.2)) := by
  intro d
  induction d with
  | nil => rfl
  | cons kv d ih =>
    obtain ⟨k₀, v₀⟩ := kv
    cases v₀ with
    | str s => simp [List.filterMap_cons, List.filter_cons, fpEntryOf, notFalse, dictKeys, ih]
    | bool b =>
      cases b <;>
        simp [List.filterMap_cons, List.filter_cons, fpEntryOf, notFalse, dictKeys, ih]

/-! ### Lemmas about the heap model and the dispatch table -/

theorem heapGet_append_lt : ∀ (hp l : HeadersHeap) (r : Nat), r < hp.length →
    heapGet (hp ++ l) r = heapGet hp r := by
  intro hp
  induction hp with
  | nil => intro l r h; cases h
  | cons d hp ih =>
    intro l r h
    cases r with
    | zero => rfl
    | succ n =>
      have hn : n < hp.length := Nat.lt_of_succ_lt_succ h
      simp only [heapGet, List.cons_append, List.getD_cons_succ]
      exact ih l n hn

theorem heapGet_append_len : ∀ (hp : HeadersHeap) (d : Dict),
    heapGet (hp ++ [d]) hp.length = d := by
  intro hp d
  induction hp with
  | nil => rfl
  | cons x hp ih =>
    simp only [heapGet, List.cons_append, List.length_cons, List.getD_cons_succ]
    exact ih

theorem heapGet_set_ne : ∀ (hp : HeadersHeap) (r r' : Nat), r ≠ r' → ∀ (d : Dict),
    heapGet (heapSet hp r' d) r = heapGet hp r := by
  intro hp
  induction hp with
  | nil => intro r r' _ d; rfl
  | cons x hp ih =>
    intro r r' h d
    cases r' with
    | zero =>
      cases r with
      | zero => exact absurd rfl h
      | succ n => rfl
    | succ m =>
      cases r with
      | zero => rfl
      | succ n =>
        have hn : n ≠ m := fun he => h (by rw [he])
        simp only [heapGet, heapSet, List.set_cons_succ, List.getD_cons_succ]
        exact ih n m hn d

theorem dispatch_append (xs ys : List CompiledEntry) (m p : String) :
    dispatch (xs ++ ys) m p = optOr (dispatch xs m p) (dispatch ys m p) := by
  unfold dispatch
  rw [List.find?_append]
  cases hf : xs.find? (fun e => decide (e.method = m) && e.pat.matches p) <;>
    simp [hf, Option.or, optOr]

/-! ### Lemmas about route compilation -/

theorem build_routes_from_ok (g : String) (geh : Dict) :
    ∀ (rds : List RouteDecl) (acc l : List CompiledEntry),
      build_routes_from g geh rds acc = .ok l →
      ∃ ps, build_list g geh rds = .ok ps ∧ l = acc ++ concatAll ps := by
  intro rds
  induction rds with
  | nil =>
    intro acc l h
    cases h
    exact ⟨[], rfl, by simp [concatAll]⟩
  | cons rd rest ih =>
    intro acc l h
    rw [build_routes_from] at h
    cases hb : build_route g geh rd with
    | error e => rw [hb] at h; cases h
    | ok es =>
      rw [hb] at h
      obtain ⟨ps, hps, hl⟩ := ih (acc ++ es) l h
      refine ⟨es :: ps, ?_, ?_⟩
      · rw [build_list, hb, hps]
      · rw [hl, concatAll, List.append_assoc]

theorem build_route_root (g : String) (geh : Dict) (cfg : Config) :
    build_route g geh (root_route_decl cfg)
      = Except.ok
          [⟨"GET", RoutePat.dirSlash "/",
            HandlerKind.dirIndex (pathJoin g "")
              (pyOrStr cfg.indexFile DEFAULT_INDEX_FILE)
              (build_extra_headers geh []), route_config_of [] [] []⟩,
           ⟨"GET", RoutePat.exact "/",
            HandlerKind.dirIndex (pathJoin g "")
              (pyOrStr cfg.indexFile DEFAULT_INDEX_FILE)
              (build_extra_headers geh []), route_config_of [] [] []⟩,
           ⟨"GET", RoutePat.dirAny "/",
            HandlerKind.dirFile (pathJoin g "") (build_extra_headers geh []),
            route_config_of [] [] []⟩] := rfl

theorem dirEq_pathJoin_empty (g : String) : dirEq (pathJoin g "") g = true := by
  show dirEq (if strEndsWith g "/" then g else g ++ "/") g = true
  cases hg : strEndsWith g "/" with
  | true =>
    show dirEq g g = true
    unfold dirEq
    simp
  | false =>
    show dirEq (g ++ "/") g = true
    unfold dirEq stripSlashes
    rw [String.data_append, show ("/" : String).data = ['/'] from rfl,
      List.reverse_append]
    simp [List.dropWhile_cons]

/-! ### Claim theorems -/

/-- C1: for every header family (security headers, CSP, Permissions/Feature
Policy, extra headers) and every override set, the resolved directive map is
the family's built-in defaults updated key-by-key — a string override wins
over the default, a `false` override removes the key from the serialized
output even when the defaults contain it, and every default key not mentioned
in the override set keeps its default value exactly. -/
theorem C1_family_resolution (u : Dict) (hu : NodupKeys u) (k : String) :
    (∀ s, dictGet u k = some (Val.str s) →
      dictGet (SecurityHeadersPlugin.base.get_sh u) k = some (Val.str s) ∧
      dictGet (dictResolve csp_defaults u) k = some (Val.str s) ∧
      dictGet (dictResolve fp_defaults u) k = some (Val.str s) ∧
      dictGet (build_extra_headers [] u) k = some (Val.str s)) ∧
    (dictGet u k = some (Val.bool false) →
      dictGet (SecurityHeadersPlugin.base.get_sh u) k = none ∧
      k ∉ (SecurityHeadersPlugin.base.get_csp_items u).map Prod.fst ∧
      k ∉ (SecurityHeadersPlugin.base.get_fp_items u).map Prod.fst ∧
      dictGet (build_extra_headers [] u) k = none) ∧
    (dictGet u k = none →
      dictGet (dictResolve sh_defaults u) k = dictGet sh_defaults k ∧
      dictGet (dictResolve csp_defaults u) k = dictGet csp_defaults k ∧
      dictGet (dictResolve fp_defaults u) k = dictGet fp_defaults k ∧
      dictGet (dictResolve DEFAULT_EXTRA_HEADERS u) k
        = dictGet DEFAULT_EXTRA_HEADERS k) := by
  have hnd_sh : NodupKeys sh_defaults := by decide
  have hnd_csp : NodupKeys csp_defaults := by decide
  have hnd_fp : NodupKeys fp_defaults := by decide
  have hnd_eh : NodupKeys DEFAULT_EXTRA_HEADERS := by decide
  have hres : ∀ (d : Dict), dictGet (dictResolve d u) k
      = (dictGet u k).or (dictGet d k) := by
    intro d
    rw [dictResolve_eq, dictMerge_get u hu]
  have hres_nodup : ∀ (d : Dict), NodupKeys d → NodupKeys (dictResolve d u) := by
    intro d hd
    rw [dictResolve_eq]
    exact dictMerge_nodup u hd
  have hstr : ∀ (d : Dict) (s : String), dictGet u k = some (Val.str s) →
      dictGet (dictResolve d u) k = some (Val.str s) := by
    intro d s hs
    rw [hres d, hs]
    rfl
  have hstr_filter : ∀ (d : Dict), NodupKeys d → ∀ s,
      dictGet u k = some (Val.str s) →
      dictGet ((dictResolve d u).filter (fun kv => notFalse kv.2)) k
        = some (Val.str s) := by
    intro d hd s hs
    rw [dictGet_filter_val _ _ (hres_nodup d hd) k, hstr d s hs]
    simp [notFalse]
  have hfalse_filter : ∀ (d : Dict), NodupKeys d →
      dictGet u k = some (Val.bool false) →
      dictGet ((dictResolve d u).filter (fun kv => notFalse kv.2)) k = none := by
    intro d hd hf
    rw [dictGet_filter_val _ _ (hres_nodup d hd) k, hres d, hf]
    simp [notFalse]
  have hnone : ∀ (d : Dict), dictGet u k = none →
      dictGet (dictResolve d u) k = dictGet d k := by
    intro d hn
    rw [hres d, hn]
    rfl
  have heh : build_extra_headers [] u
      = (dictResolve DEFAULT_EXTRA_HEADERS u).filter (fun kv => notFalse kv.2) := by
    unfold build_extra_headers
    rw [dictMerge_nil, dictResolve_eq]
  have hgs : SecurityHeadersPlugin.base.get_sh u
      = (dictResolve sh_defaults u).filter (fun kv => notFalse kv.2) := rfl
  refine ⟨?_, ?_, ?_⟩
  · intro s hs
    exact ⟨hgs ▸ hstr_filter sh_defaults hnd_sh s hs, hstr csp_defaults s hs,
      hstr fp_defaults s hs, heh ▸ hstr_filter DEFAULT_EXTRA_HEADERS hnd_eh s hs⟩
  · intro hf
    refine ⟨hgs ▸ hfalse_filter sh_defaults hnd_sh hf, ?_, ?_,
      heh ▸ hfalse_filter DEFAULT_EXTRA_HEADERS hnd_eh hf⟩
    · intro hk
      have hitems : SecurityHeadersPlugin.base.get_csp_items u
          = (dictResolve csp_defaults u).filterMap cspEntryOf := rfl
      rw [hitems, filterMap_csp_fst, mem_dictKeys, dictContains_eq_isSome,
        hfalse_filter csp_defaults hnd_csp hf] at hk
      cases hk
    · intro hk
      have hitems : SecurityHeadersPlugin.base.get_fp_items u
          = (dictResolve fp_defaults u).filterMap fpEntryOf := rfl
      rw [hitems, filterMap_fp_fst, mem_dictKeys, dictContains_eq_isSome,
        hfalse_filter fp_defaults hnd_fp hf] at hk
      cases hk
  · intro hn
    exact ⟨hnone sh_defaults hn, hnone csp_defaults hn, hnone fp_defaults hn,
      hnone DEFAULT_EXTRA_HEADERS hn⟩

/-- Witness for C1 at a concrete override set: a string override of
`X-Frame-Options` wins over the `DENY` default in the resolved security-header
map. -/
theorem C1_family_resolution_witness :
    dictGet (SecurityHeadersPlugin.base.get_sh
        [("X-Frame-Options", Val.str "SAMEORIGIN"), ("img-src", Val.bool false)])
      "X-Frame-Options" = some (Val.str "SAMEORIGIN") :=
  ((C1_family_resolution
      [("X-Frame-Options", Val.str "SAMEORIGIN"), ("img-src", Val.bool false)]
      (by decide) "X-Frame-Options").1 "SAMEORIGIN" (by decide)).1

/-- C2 counterexample: the claim says a boolean `true` directive renders as
the bare directive name for both the CSP and the Permissions/Feature-Policy
family, but `get_fp` renders `{'camera': True}` as the entry `"camera True"`
(Python `f'{k} {v}'` with `str(True)`), not as the bare `"camera"`. -/
theorem C2_serialization_cex :
    ("camera", "camera True")
      ∈ SecurityHeadersPlugin.base.get_fp_items [("camera", Val.bool true)] ∧
    ("camera", "camera")
      ∉ SecurityHeadersPlugin.base.get_fp_items [("camera", Val.bool true)] ∧
    strContains (SecurityHeadersPlugin.base.get_fp [("camera", Val.bool true)])
      "camera True" = true := by decide

/-- C2 (amended): CSP and Feature-Policy serialisation orders directives as
default-declaration order followed by override-added keys in insertion order,
omits `false`-valued and absent directives, joins entries with `"; "`, and
renders a string value as `name value`; a boolean `true` renders bare for CSP
but as `name True` for the Permissions/Feature-Policy family; the global
override `{img-src: 'self'}` yields a CSP value starting with the five
defaults followed by `img-src 'self'`. -/
theorem C2_serialization (u : Dict) (hu : NodupKeys u) :
    dictKeys (dictResolve csp_defaults u)
      = dictKeys csp_defaults
        ++ (dictKeys u).filter (fun k => !(dictContains csp_defaults k)) ∧
    dictKeys (dictResolve fp_defaults u)
      = dictKeys fp_defaults
        ++ (dictKeys u).filter (fun k => !(dictContains fp_defaults k)) ∧
    (SecurityHeadersPlugin.base.get_csp_items u).map Prod.fst
      = dictKeys ((dictResolve csp_defaults u).filter (fun kv => notFalse kv.2)) ∧
    (SecurityHeadersPlugin.base.get_fp_items u).map Prod.fst
      = dictKeys ((dictResolve fp_defaults u).filter (fun kv => notFalse kv.2)) ∧
    (∀ k s, dictGet (dictResolve csp_defaults u) k = some (Val.str s) →
      (k, k ++ " " ++ s) ∈ SecurityHeadersPlugin.base.get_csp_items u) ∧
    (∀ k, dictGet (dictResolve csp_defaults u) k = some (Val.bool true) →
      (k, k) ∈ SecurityHeadersPlugin.base.get_csp_items u) ∧
    (∀ k s, dictGet (dictResolve fp_defaults u) k = some (Val.str s) →
      (k, k ++ " " ++ s) ∈ SecurityHeadersPlugin.base.get_fp_items u) ∧
    (∀ k, dictGet (dictResolve fp_defaults u) k = some (Val.bool true) →
      (k, k ++ " True") ∈ SecurityHeadersPlugin.base.get_fp_items u) ∧
    SecurityHeadersPlugin.base.get_csp u
      = joinSep "; " ((SecurityHeadersPlugin.base.get_csp_items u).map Prod.snd) ∧
    strStartsWith
      ((SecurityHeadersPlugin.init [] [("img-src", Val.str qself)] []).get_csp [])
      ("default-src " ++ qnone ++ "; base-uri " ++ qnone ++ "; form-action "
        ++ qnone ++ "; frame-ancestors " ++ qnone
        ++ "; block-all-mixed-content; img-src " ++ qself) = true := by
  have hitems_csp : SecurityHeadersPlugin.base.get_csp_items u
      = (dictResolve csp_defaults u).filterMap cspEntryOf := rfl
  have hitems_fp : SecurityHeadersPlugin.base.get_fp_items u
      = (dictResolve fp_defaults u).filterMap fpEntryOf := rfl
  refine ⟨?_, ?_, ?_, ?_, ?_, ?_, ?_, ?_, rfl, by decide⟩
  · rw [dictResolve_eq]
    exact dictMerge_keys u hu csp_defaults
  · rw [dictResolve_eq]
    exact dictMerge_keys u hu fp_defaults
  · rw [hitems_csp]
    exact filterMap_csp_fst _
  · rw [hitems_fp]
    exact filterMap_fp_fst _
  · intro k s h
    rw [hitems_csp]
    exact List.mem_filterMap.mpr ⟨(k, Val.str s), dictGet_mem h, rfl⟩
  · intro k h
    rw [hitems_csp]
    exact List.mem_filterMap.mpr ⟨(k, Val.bool true), dictGet_mem h, rfl⟩
  · intro k s h
    rw [hitems_fp]
    exact List.mem_filterMap.mpr ⟨(k, Val.str s), dictGet_mem h, rfl⟩
  · intro k h
    rw [hitems_fp]
    refine List.mem_filterMap.mpr ⟨(k, Val.bool true), dictGet_mem h, ?_⟩
    show some (k, k ++ " " ++ "True") = some (k, k ++ " True")
    rw [String.append_assoc]
    rfl

/-- Witness for C2 at a concrete override set: `img-src 'self'` appears among
the serialized CSP entries, keyed by its directive name. -/
theorem C2_serialization_witness :
    ("img-src", "img-src " ++ qself)
      ∈ SecurityHeadersPlugin.base.get_csp_items [("img-src", Val.str qself)] :=
  ((C2_serialization [("img-src", Val.str qself)] (by decide)).2.2.2.2.1
    "img-src" qself (by decide))

/-- C3 (code bug): the Permissions-Policy family is not layered like the
other three.  `construct_app` passes the keyword `pp_updates` to
`SecurityHeadersPlugin(...)`, whose `__init__` accepts only `sh_updates`,
`csp_updates` and `fp_updates`, so constructing the app raises `TypeError`;
moreover `build_route` stores per-route overrides under the route-config key
`sh_pp_updates` while `SecurityHeadersPlugin.apply` reads `sh_fp_updates`, so
a per-route Permissions-Policy override set is silently dropped and the
applied headers equal those of a route with no such override. -/
theorem C3_permissions_policy_bug :
    keyword_call_ok security_headers_plugin_init_params
      construct_app_plugin_call_kwargs = false ∧
    construct_app_plugin_call_kwargs.contains "pp_updates" = true ∧
    security_headers_plugin_init_params.contains "pp_updates" = false ∧
    unflatten (route_config_of [] [] [("camera", Val.str qself)])
      "sh_fp_updates." = [] ∧
    unflatten (route_config_of [] [] [("camera", Val.str qself)])
      "sh_pp_updates." = [("camera", Val.str qself)] ∧
    SecurityHeadersPlugin.apply_headers SecurityHeadersPlugin.base
        (route_config_of [] [] [("camera", Val.str qself)])
      = SecurityHeadersPlugin.apply_headers SecurityHeadersPlugin.base
          (route_config_of [] [] []) := by decide

/-- C4: applying the security-headers policy to a response sets a header only
when no header of that name is already set, so the handler's earlier headers
survive unchanged, and the status and body are untouched. -/
theorem C4_no_clobber (p : SecurityHeadersPlugin) (cfg : Dict) (r : Resp)
    (k : String) :
    (SecurityHeadersPlugin.apply_wrapper p cfg r).status = r.status ∧
    (SecurityHeadersPlugin.apply_wrapper p cfg r).body = r.body ∧
    dictGet (SecurityHeadersPlugin.apply_wrapper p cfg r).headers k
      = if dictContains r.headers k then dictGet r.headers k
        else dictGet (p.apply_headers cfg) k :=
  ⟨rfl, rfl, dictGet_ensure (p.apply_headers cfg) r.headers k⟩

/-- C5: any client-class (4xx) error from the `static_file` primitive is
normalized by `serve_static_file` to exactly 404 with the fixed body
`Not Found` — the file layer's own status and body are never forwarded, and
in particular no such request yields a 403 or a 500. -/
theorem C5_error_normalization (s : Nat) (b : String) (h₁ : 400 ≤ s)
    (h₂ : s < 500) :
    serve_static_file (StaticResult.httpError s b)
      = StaticResult.httpError 404 "Not Found" := by
  show (if 400 ≤ s ∧ s < 500 then StaticResult.httpError 404 "Not Found"
      else StaticResult.httpError s b)
    = StaticResult.httpError 404 "Not Found"
  rw [if_pos ⟨h₁, h₂⟩]

/-- Witness for C5: a 403 from the file primitive leaves `serve_static_file`
as a 404 with the generic body. -/
theorem C5_error_normalization_witness :
    serve_static_file (StaticResult.httpError 403 "Forbidden")
      = StaticResult.httpError 404 "Not Found" :=
  C5_error_normalization 403 "Forbidden" (by decide) (by decide)

/-- C6: route compilation preserves declaration order — the configured routes
register in declaration order after the probe routes, exactly one synthesized
catch-all directory route (path-pattern base `/`, file root equal to the
global file root up to a trailing separator) registers after all of them, and
under the dispatch contract (first registered match wins) any earlier
matching route takes precedence over the catch-all. -/
theorem C6_route_order (g : String) (cfg : Config) (table : List CompiledEntry)
    (hok : construct_route_table g cfg = Except.ok table) :
    ∃ ps root,
      build_list g (build_eh_updates cfg.extraHeaders) cfg.routes = Except.ok ps ∧
      build_route g (build_eh_updates cfg.extraHeaders) (root_route_decl cfg)
        = Except.ok root ∧
      table = probe_entries ++ concatAll ps ++ root ∧
      (∀ e ∈ root, e.pat = RoutePat.dirSlash "/" ∨ e.pat = RoutePat.exact "/"
        ∨ e.pat = RoutePat.dirAny "/") ∧
      (∀ e ∈ root, ∀ fr, e.fileRootOf = some fr → dirEq fr g = true) ∧
      (∀ m p, dispatch table m p
        = optOr (dispatch (probe_entries ++ concatAll ps) m p)
            (dispatch root m p)) := by
  unfold construct_route_table at hok
  cases hb : build_routes_from g (build_eh_updates cfg.extraHeaders) cfg.routes
      probe_entries with
  | error e => rw [hb] at hok; cases hok
  | ok tbl =>
    rw [hb] at hok
    cases hr : build_route g (build_eh_updates cfg.extraHeaders)
        (root_route_decl cfg) with
    | error e => rw [hr] at hok; cases hok
    | ok root =>
      rw [hr] at hok
      cases hok
      obtain ⟨ps, hps, htbl⟩ :=
        build_routes_from_ok g (build_eh_updates cfg.extraHeaders) cfg.routes
          probe_entries tbl hb
      subst htbl
      have hrootL : root
          = [⟨"GET", RoutePat.dirSlash "/",
              HandlerKind.dirIndex (pathJoin g "")
                (pyOrStr cfg.indexFile DEFAULT_INDEX_FILE)
                (build_extra_headers (build_eh_updates cfg.extraHeaders) []),
              route_config_of [] [] []⟩,
             ⟨"GET", RoutePat.exact "/",
              HandlerKind.dirIndex (pathJoin g "")
                (pyOrStr cfg.indexFile DEFAULT_INDEX_FILE)
                (build_extra_headers (build_eh_updates cfg.extraHeaders) []),
              route_config_of [] [] []⟩,
             ⟨"GET", RoutePat.dirAny "/",
              HandlerKind.dirFile (pathJoin g "")
                (build_extra_headers (build_eh_updates cfg.extraHeaders) []),
              route_config_of [] [] []⟩] := by
        have h2 := build_route_root g (build_eh_updates cfg.extraHeaders) cfg
        rw [hr] at h2
        exact Except.ok.inj h2
      subst hrootL
      refine ⟨ps, _, hps, hr, rfl, ?_, ?_, ?_⟩
      · intro e he
        simp only [List.mem_cons, List.not_mem_nil, or_false] at he
        rcases he with rfl | rfl | rfl
        · exact Or.inl rfl
        · exact Or.inr (Or.inl rfl)
        · exact Or.inr (Or.inr rfl)
      · intro e he fr hfr
        simp only [List.mem_cons, List.not_mem_nil, or_false] at he
        rcases he with rfl | rfl | rfl
        · injection hfr with h
          subst h
          exact dirEq_pathJoin_empty g
        · injection hfr with h
          subst h
          exact dirEq_pathJoin_empty g
        · injection hfr with h
          subst h
          exact dirEq_pathJoin_empty g
      · intro m p
        exact dispatch_append (probe_entries ++ concatAll ps) _ m p

/-- Witness for C6: the table compiled from an empty configuration with file
root `/site` is the probe routes followed by the root catch-all entries. -/
theorem C6_route_order_witness :
    ∃ ps root,
      build_list "/site" (build_eh_updates ({} : Config).extraHeaders)
        ({} : Config).routes = Except.ok ps ∧
      build_route "/site" (build_eh_updates ({} : Config).extraHeaders)
        (root_route_decl {}) = Except.ok root ∧
      C6_witness_table = probe_entries ++ concatAll ps ++ root ∧
      (∀ e ∈ root, e.pat = RoutePat.dirSlash "/" ∨ e.pat = RoutePat.exact "/"
        ∨ e.pat = RoutePat.dirAny "/") ∧
      (∀ e ∈ root, ∀ fr, e.fileRootOf = some fr → dirEq fr "/site" = true) ∧
      (∀ m p, dispatch C6_witness_table m p
        = optOr (dispatch (probe_entries ++ concatAll ps) m p)
            (dispatch root m p)) :=
  C6_route_order "/site" {} C6_witness_table (by rfl)

/-- C7: a GET on the liveness probe path always answers 200 `Live`; a GET on
the readiness probe path answers 200 `Ready` while the readiness flag is true
and 503 `Unavailable` once it is false; the flag starts true and the shutdown
handler sets it to false; both probe paths are present in the dispatch
table. -/
theorem C7_probes :
    live_handler.status = 200 ∧ live_handler.body = "Live" ∧
    (ready_handler true).status = 200 ∧ (ready_handler true).body = "Ready" ∧
    (ready_handler false).status = 503 ∧
    (ready_handler false).body = "Unavailable" ∧
    SERVER_READY_initial = true ∧ shutdown_server_ready = false ∧
    ready_handler SERVER_READY_initial = ⟨200, [], "Ready"⟩ ∧
    ready_handler shutdown_server_ready = ⟨503, [], "Unavailable"⟩ ∧
    dispatch probe_entries "GET" "/-/live"
      = some ⟨"GET", RoutePat.exact "/-/live", HandlerKind.probeLive, []⟩ ∧
    dispatch probe_entries "GET" "/-/ready"
      = some ⟨"GET", RoutePat.exact "/-/ready", HandlerKind.probeReady, []⟩ := by
  decide

/-- C8 counterexample: the claim says the response content-type is the
configured content-type with `; charset=UTF-8` appended, but the code strips
surrounding whitespace first — a configured `"text/plain "` (trailing space)
resolves to `"text/plain; charset=UTF-8"`, not to
`"text/plain ; charset=UTF-8"`. -/
theorem C8_text_route_cex :
    resolve_content_type (some "text/plain ") = "text/plain; charset=UTF-8" ∧
    resolve_content_type (some "text/plain ")
      ≠ "text/plain " ++ "; charset=UTF-8" := by decide

/-- C8 (amended): a text route returns the literal configured string as the
body with the handler's status untouched; the content-type defaults to
`text/plain` and, exactly when it begins with `text/` and has no `charset=`
substring, is stripped of surrounding whitespace and suffixed with
`; charset=UTF-8` (otherwise it is used as configured); the declared
`/robots.txt` route answers 200 with body `User-agent: *\nDisallow:` and
content-type `text/plain; charset=UTF-8`. -/
theorem C8_text_route (ct : Option String) (eh : Dict) (txt : String)
    (r : Resp) :
    (strTake (pyOrStr ct "text/plain") 5 = "text/" →
      strContains (pyOrStr ct "text/plain") "charset=" = false →
      resolve_content_type ct
        = pyStrip (pyOrStr ct "text/plain") ++ "; charset=UTF-8") ∧
    (strContains (pyOrStr ct "text/plain") "charset=" = true →
      resolve_content_type ct = pyOrStr ct "text/plain") ∧
    (strTake (pyOrStr ct "text/plain") 5 ≠ "text/" →
      resolve_content_type ct = pyOrStr ct "text/plain") ∧
    (serve_text eh (resolve_content_type ct) txt r).body = txt ∧
    (serve_text eh (resolve_content_type ct) txt r).status = r.status ∧
    dictGet (serve_text eh (resolve_content_type ct) txt r).headers
      "Content-Type" = some (Val.str (resolve_content_type ct)) ∧
    robots_route_resp.status = 200 ∧
    robots_route_resp.body = robots_text ∧
    dictGet robots_route_resp.headers "Content-Type"
      = some (Val.str "text/plain; charset=UTF-8") := by
  refine ⟨?_, ?_, ?_, rfl, rfl, dictGet_insert_self .., by decide, by decide,
    by decide⟩
  · intro h1 h2
    show (if strTake (pyOrStr ct "text/plain") 5 = "text/"
          ∧ strContains (pyOrStr ct "text/plain") "charset=" = false then
        pyStrip (pyOrStr ct "text/plain") ++ "; charset=UTF-8"
      else pyOrStr ct "text/plain")
      = pyStrip (pyOrStr ct "text/plain") ++ "; charset=UTF-8"
    rw [if_pos ⟨h1, h2⟩]
  · intro h
    show (if strTake (pyOrStr ct "text/plain") 5 = "text/"
          ∧ strContains (pyOrStr ct "text/plain") "charset=" = false then
        pyStrip (pyOrStr ct "text/plain") ++ "; charset=UTF-8"
      else pyOrStr ct "text/plain")
      = pyOrStr ct "text/plain"
    refine if_neg ?_
    rintro ⟨-, hcf⟩
    rw [h] at hcf
    cases hcf
  · intro h
    show (if strTake (pyOrStr ct "text/plain") 5 = "text/"
          ∧ strContains (pyOrStr ct "text/plain") "charset=" = false then
        pyStrip (pyOrStr ct "text/plain") ++ "; charset=UTF-8"
      else pyOrStr ct "text/plain")
      = pyOrStr ct "text/plain"
    refine if_neg ?_
    rintro ⟨ht, -⟩
    exact h ht

/-- Witness for C8: a content-type of `text/markdown` (no charset) gets the
UTF-8 charset suffix appended. -/
theorem C8_text_route_witness :
    resolve_content_type (some "text/markdown")
      = "text/markdown; charset=UTF-8" :=
  (C8_text_route (some "text/markdown") [] "" Resp.initial).1 (by decide)
    (by decide)

/-- C9 counterexample: the claim says every directive name in a configuration
override section is passed through verbatim for all four families, but the
security-headers and extra-headers sections are filtered against fixed
allowlists — an unknown name such as `X-Custom` is dropped. -/
theorem C9_passthrough_cex :
    build_sh_updates [("X-Custom", Val.str "v")] = [] ∧
    build_eh_updates [("X-Custom", Val.str "v")] = [] ∧
    dictGet (build_sh_updates [("X-Custom", Val.str "v")]) "X-Custom"
      = none := by decide

/-- C9 (amended): override resolution is total (no error conditions); the CSP
and Permissions-Policy configuration sections pass every directive name
through verbatim, and any name present in an update set — known or not —
survives into the resolved CSP/Feature-Policy map; the security-headers and
extra-headers sections however keep exactly the allowlisted names
(`sh_headers` / `eh_headers`) and drop all others. -/
theorem C9_passthrough (sect u : Dict) (hu : NodupKeys u) (k : String)
    (v : Val) :
    build_csp_updates sect = sect ∧
    build_pp_updates sect = sect ∧
    (sh_headers.contains k = true →
      dictGet (build_sh_updates sect) k = dictGet sect k) ∧
    (sh_headers.contains k = false →
      dictGet (build_sh_updates sect) k = none) ∧
    (eh_headers.contains k = true →
      dictGet (build_eh_updates sect) k = dictGet sect k) ∧
    (eh_headers.contains k = false →
      dictGet (build_eh_updates sect) k = none) ∧
    (dictGet u k = some v → dictGet (dictResolve csp_defaults u) k = some v) ∧
    (dictGet u k = some v → dictGet (dictResolve fp_defaults u) k = some v) := by
  have hres : ∀ (d : Dict), dictGet u k = some v →
      dictGet (dictResolve d u) k = some v := by
    intro d h
    rw [dictResolve_eq, dictMerge_get u hu, h]
    rfl
  refine ⟨rfl, rfl, ?_, ?_, ?_, ?_, hres csp_defaults, hres fp_defaults⟩
  · intro h
    rw [show build_sh_updates sect
        = sect.filter (fun kv => sh_headers.contains kv.1) from rfl,
      dictGet_filter_key _ sect k, h]
    rfl
  · intro h
    rw [show build_sh_updates sect
        = sect.filter (fun kv => sh_headers.contains kv.1) from rfl,
      dictGet_filter_key _ sect k, h]
    rfl
  · intro h
    rw [show build_eh_updates sect
        = sect.filter (fun kv => eh_headers.contains kv.1) from rfl,
      dictGet_filter_key _ sect k, h]
    rfl
  · intro h
    rw [show build_eh_updates sect
        = sect.filter (fun kv => eh_headers.contains kv.1) from rfl,
      dictGet_filter_key _ sect k, h]
    rfl

/-- Witness for C9: an allowlisted security-header name survives section
filtering, at a concrete section. -/
theorem C9_passthrough_witness :
    dictGet (build_sh_updates [("X-Frame-Options", Val.str "SAMEORIGIN")])
        "X-Frame-Options"
      = dictGet [("X-Frame-Options", Val.str "SAMEORIGIN")]
          "X-Frame-Options" :=
  (C9_passthrough [("X-Frame-Options", Val.str "SAMEORIGIN")] [] (by decide)
    "X-Frame-Options" (Val.str "SAMEORIGIN")).2.2.1 (by decide)

/-- C10: serving a request never mutates the captured header structures —
`serve_static_file` hands `static_file` a fresh copy of the headers dict, so
whatever mutation the primitive performs, the caller's dict is unchanged; and
`get_sh`/`get_csp`/`get_fp` allocate fresh dicts, leaving the plugin's default
tables unchanged, with the heap computation returning exactly the pure
`get_sh` value of the stored table. -/
theorem C10_no_mutation (mutate : Dict → Dict) (h : HeadersHeap) (r : Nat)
    (u : Dict) (hr : r < h.length) :
    heapGet (serve_static_file_heap mutate h r).1 r = heapGet h r ∧
    heapGet (get_sh_heap h r u).1 r = heapGet h r ∧
    heapGet (get_csp_heap h r u).1 r = heapGet h r ∧
    heapGet (get_fp_heap h r u).1 r = heapGet h r ∧
    (get_sh_heap h r u).2 = SecurityHeadersPlugin.get_sh ⟨heapGet h r, [], []⟩ u := by
  have hne : r ≠ h.length := Nat.ne_of_lt hr
  refine ⟨?_, ?_, ?_, ?_, ?_⟩
  · show heapGet (heapSet (h ++ [heapGet h r]) h.length
        (mutate (heapGet (h ++ [heapGet h r]) h.length))) r = heapGet h r
    rw [heapGet_set_ne _ r h.length hne]
    exact heapGet_append_lt h _ r hr
  · cases u with
    | nil => rfl
    | cons kv u' =>
      show heapGet (h ++ [dictMerge (heapGet h r) (kv :: u')]) r = heapGet h r
      exact heapGet_append_lt h _ r hr
  · cases u with
    | nil => rfl
    | cons kv u' =>
      show heapGet (h ++ [dictMerge (heapGet h r) (kv :: u')]) r = heapGet h r
      exact heapGet_append_lt h _ r hr
  · cases u with
    | nil => rfl
    | cons kv u' =>
      show heapGet (h ++ [dictMerge (heapGet h r) (kv :: u')]) r = heapGet h r
      exact heapGet_append_lt h _ r hr
  · cases u with
    | nil => rfl
    | cons kv u' =>
      show (heapGet (h ++ [dictMerge (heapGet h r) (kv :: u')]) h.length).filter
          (fun kv => notFalse kv.2)
        = (dictResolve (heapGet h r) (kv :: u')).filter (fun kv => notFalse kv.2)
      rw [heapGet_append_len, dictResolve_eq]

/-- Witness for C10: a concrete one-cell heap survives a `serve_static_file`
call whose primitive erases the dict it is handed. -/
theorem C10_no_mutation_witness :
    heapGet (serve_static_file_heap (fun _ => []) [[("a", Val.str "b")]] 0).1 0
      = heapGet [[("a", Val.str "b")]] 0 :=
  (C10_no_mutation (fun _ => []) [[("a", Val.str "b")]] 0 [] (by decide)).1

end Bottler
